import Mathlib

/-!
Shallow embedding of the Lock + Version + Diff + Rollback subsystem of the
`yibiao-simple` backend (`app/services/version_service.py`,
`app/routers/chapters.py`, `app/routers/versions.py`,
`app/models/{chapter,version,project,user}.py`).

Identities (users, chapters, projects, versions) are modelled as `Nat`;
timestamps as `Nat` seconds.  Each public operation of the Python code is a
pure function on an explicit database state `DB`; SQLAlchemy queries become
list operations over the state.  Each operation call runs in its own
transaction (the `SELECT ... FOR UPDATE` critical section of
`create_version`), so a sequence of calls is modelled by sequential
composition.
-/

namespace Yibiao

/-- The `ChapterStatus` enum of `app/models/chapter.py`. -/
inductive ChapterStatus where
  | pending
  | generated
  | reviewing
  | finalized
deriving DecidableEq, Repr

/-- The `ProjectMemberRole` enum of `app/models/project.py`. -/
inductive ProjectMemberRole where
  | owner
  | editor
  | reviewer
deriving DecidableEq, Repr

/-- The `UserRole` enum (global role) of `app/models/user.py`. -/
inductive UserRole where
  | admin
  | editor
  | reviewer
deriving DecidableEq, Repr

/-- The `ChangeType` enum of `app/models/version.py`. -/
inductive ChangeType where
  | aiGenerate
  | manualEdit
  | proofread
  | rollback
deriving DecidableEq, Repr

/-- The value found under the `"id"` key of a chapter record inside a
snapshot payload.  `missing` models an absent key, `null` a key mapped to
`None` (both are falsy and fail the `if not ch_id_str` guard of
`rollback_to_version`), `invalid s` a string that does not parse as a UUID
(`uuid.UUID` raises `ValueError`; the empty string is also falsy), and
`valid n` a string that is the serialization of the UUID identified with
`n`. -/
inductive RawId where
  | missing
  | null
  | invalid (s : String)
  | valid (n : Nat)
deriving DecidableEq, Repr

/-- A chapter record inside a whole-project snapshot payload, carrying the
keys the code writes in `create_project_snapshot` / the rollback
pre-snapshot and reads in `_compute_diff` / `rollback_to_version`.
`objId` models the Python object identity used by the
`str(id(ch))` fallback key of `chapters_by_key`. -/
structure SnapEntry where
  id : RawId
  chapterNumber : Option String
  title : Option String
  content : Option String
  status : Option String
  parentId : Option String
  orderIndex : Option Nat
  objId : Nat
deriving DecidableEq, Repr

/-- A version's `snapshot_data` payload: either a whole-project payload
(a dict with a `"chapters"` list) or a chapter-scoped edit payload
(the dict built in `update_chapter_content`, which has no `"chapters"`
key). -/
inductive Snapshot where
  | project (chapters : List SnapEntry)
  | chapterEdit (chapterId : String) (chapterNumber : String) (title : String)
      (oldContent : Option String) (newContent : String)
deriving DecidableEq, Repr

/-- Models `snapshot_data.get("chapters", [])`. -/
def Snapshot.chapters : Snapshot → List SnapEntry
  | .project l => l
  | .chapterEdit _ _ _ _ _ => []

/-- Row of the `chapters` table (`app/models/chapter.py`). -/
structure Chapter where
  id : Nat
  projectId : Nat
  parentId : Option Nat
  chapterNumber : String
  title : String
  content : Option String
  status : ChapterStatus
  orderIndex : Nat
  lockedBy : Option Nat
  lockedAt : Option Nat
deriving DecidableEq, Repr

/-- Row of the `project_versions` table (`app/models/version.py`). -/
structure Version where
  id : Nat
  projectId : Nat
  chapterId : Option Nat
  versionNumber : Nat
  snapshot : Snapshot
  changeType : ChangeType
  changeSummary : Option String
  createdBy : Option Nat
deriving DecidableEq, Repr

/-- Row of the `users` table, restricted to the fields the subsystem
reads. -/
structure UserRec where
  id : Nat
  username : String
  role : UserRole
  isActive : Bool
deriving DecidableEq, Repr

/-- Row of the `project_members` association table. -/
structure Member where
  projectId : Nat
  userId : Nat
  role : ProjectMemberRole
deriving DecidableEq, Repr

/-- The persistent state touched by the subsystem.  `nextVid` is the fresh
primary-key supply for new version rows (`uuid4` in the source). -/
structure DB where
  chapters : List Chapter
  versions : List Version
  members : List Member
  users : List UserRec
  nextVid : Nat
deriving DecidableEq, Repr

/-- Maximum `version_number` among the version rows of a project, `0` if
none. -/
def maxVNumList (vs : List Version) (pid : Nat) : Nat :=
  (vs.filter (fun v => v.projectId == pid)).foldl
    (fun m v => max m v.versionNumber) 0

/-- Models `select(func.max(ProjectVersion.version_number)).where(project_id == pid)`
with the `or 0` default. -/
def maxVersionNumber (db : DB) (pid : Nat) : Nat :=
  maxVNumList db.versions pid

/-- Models `VersionService.create_version`: inside the `FOR UPDATE` critical
section, read the maximum version number for the project (`0` if none),
insert a row numbered `max + 1`, and return it. -/
def createVersion (db : DB) (pid : Nat) (cid : Option Nat) (uid : Option Nat)
    (ctype : ChangeType) (snap : Snapshot) (summary : Option String) :
    Version × DB :=
  let n := maxVersionNumber db pid + 1
  let v : Version :=
    { id := db.nextVid, projectId := pid, chapterId := cid, versionNumber := n,
      snapshot := snap, changeType := ctype, changeSummary := summary,
      createdBy := uid }
  (v, { db with versions := db.versions ++ [v], nextVid := db.nextVid + 1 })

/-- The arguments of one `create_version` call. -/
structure CreateCall where
  projectId : Nat
  chapterId : Option Nat
  userId : Option Nat
  changeType : ChangeType
  snapshot : Snapshot
  summary : Option String
deriving DecidableEq, Repr

/-- A finite sequence of `create_version` calls, each executed in its own
critical section (sequential composition). -/
def applyCreateCalls (db : DB) (calls : List CreateCall) : DB :=
  calls.foldl
    (fun d c =>
      (createVersion d c.projectId c.chapterId c.userId c.changeType
        c.snapshot c.summary).2)
    db

/-- The version numbers stored for a project, in row-insertion order. -/
def versionNumbersFor (db : DB) (pid : Nat) : List Nat :=
  (db.versions.filter (fun v => v.projectId == pid)).map
    (fun v => v.versionNumber)

/-- The list `[1, 2, ..., k]`. -/
def seqOneTo : Nat → List Nat
  | 0 => []
  | k + 1 => seqOneTo k ++ [k + 1]

/-- Serialization of the UUID identified with `n` (`str(ch.id)`); always a
nonempty string, injective. -/
def uuidStr (n : Nat) : String := "uuid-" ++ toString n

/-- The Python value of `ch.get("id")`: `None` for an absent key or a null
value, otherwise the stored string. -/
def RawId.str : RawId → Option String
  | .missing => none
  | .null => none
  | .invalid s => some s
  | .valid n => some (uuidStr n)

/-- Fallback key `ch.get("chapter_number", str(id(ch)))`. -/
def SnapEntry.fallbackKey (e : SnapEntry) : String :=
  match e.chapterNumber with
  | some cn => cn
  | none => toString e.objId

/-- Models `key = ch.get("id") or ch.get("chapter_number", str(id(ch)))`:
the id string when truthy (present and nonempty), else the fallback. -/
def entryKey (e : SnapEntry) : String :=
  match e.id.str with
  | some s => if s = "" then e.fallbackKey else s
  | none => e.fallbackKey

/-- Models `chapters_by_key`: the dict built by inserting each record under its
key, represented as the association list of bindings in insertion
order (a later binding shadows an earlier one on lookup). -/
def chaptersByKey (chapters : List SnapEntry) : List (String × SnapEntry) :=
  chapters.map (fun ch => (entryKey ch, ch))

/-- Dict lookup: the most recently inserted binding for the key wins. -/
def dictGet (d : List (String × SnapEntry)) (k : String) : Option SnapEntry :=
  (d.reverse.find? (fun p => p.1 == k)).map Prod.snd

/-- The key set of the dict. -/
def dictKeys (d : List (String × SnapEntry)) : Finset String :=
  (d.map Prod.fst).toFinset

/-- Python truthiness of a chapter record (dict): falsy iff it has no keys
at all. -/
def SnapEntry.truthy (e : SnapEntry) : Bool :=
  !(e.id == RawId.missing) || e.chapterNumber.isSome || e.title.isSome ||
    e.content.isSome || e.status.isSome || e.parentId.isSome ||
    e.orderIndex.isSome

/-- Truthiness of `ch_dict.get(key)`: `None` is falsy, a record is falsy
iff empty. -/
def truthyOpt : Option SnapEntry → Bool
  | none => false
  | some e => e.truthy

/-- The `"type"` tag of a diff change. -/
inductive ChangeKind where
  | added
  | deleted
  | modified
deriving DecidableEq, Repr

/-- Swap `added ↔ deleted`; `modified` stays `modified`. -/
def ChangeKind.swap : ChangeKind → ChangeKind
  | .added => .deleted
  | .deleted => .added
  | .modified => .modified

/-- One change record emitted by `_compute_diff` (union of the fields of
the three record shapes; fields a shape does not carry are `none` /
`false`). -/
structure DiffChange where
  kind : ChangeKind
  chapterId : String
  chapterNumber : Option String
  title : Option String
  oldTitle : Option String
  newTitle : Option String
  oldContent : Option String
  newContent : Option String
  contentChanged : Bool
  titleChanged : Bool
deriving DecidableEq, Repr

/-- The per-key body of the `for key in all_keys` loop of `_compute_diff`:
`if ch1 and not ch2` → deleted, `elif not ch1 and ch2` → added,
`elif ch1 and ch2` → modified when title or content differ. -/
def classifyKey (k : String) (o1 o2 : Option SnapEntry) : Option DiffChange :=
  if truthyOpt o1 && !truthyOpt o2 then
    match o1 with
    | some ch1 =>
      some { kind := .deleted, chapterId := k,
             chapterNumber := ch1.chapterNumber, title := ch1.title,
             oldTitle := none, newTitle := none,
             oldContent := ch1.content, newContent := none,
             contentChanged := false, titleChanged := false }
    | none => none
  else if !truthyOpt o1 && truthyOpt o2 then
    match o2 with
    | some ch2 =>
      some { kind := .added, chapterId := k,
             chapterNumber := ch2.chapterNumber, title := ch2.title,
             oldTitle := none, newTitle := none,
             oldContent := none, newContent := ch2.content,
             contentChanged := false, titleChanged := false }
    | none => none
  else if truthyOpt o1 && truthyOpt o2 then
    match o1, o2 with
    | some ch1, some ch2 =>
      if ch1.content ≠ ch2.content ∨ ch1.title ≠ ch2.title then
        some { kind := .modified, chapterId := k,
               chapterNumber := ch2.chapterNumber, title := ch2.title,
               oldTitle := if ch1.title ≠ ch2.title then ch1.title else none,
               newTitle := if ch1.title ≠ ch2.title then ch2.title else none,
               oldContent := ch1.content, newContent := ch2.content,
               contentChanged := decide (ch1.content ≠ ch2.content),
               titleChanged := decide (ch1.title ≠ ch2.title) }
      else none
    | _, _ => none
  else none

/-- The aggregate returned by `_compute_diff`. -/
structure DiffResult where
  totalChanges : Nat
  added : Nat
  deleted : Nat
  modified : Nat
  changes : List DiffChange
deriving DecidableEq, Repr

/-- Models `VersionService._compute_diff` on the two snapshot payloads.  The
Python `set` iteration order is unspecified; the key set is enumerated
here in sorted order (the spec documents the change-list order as
unspecified, so any canonical enumeration of the key set is faithful). -/
def computeDiff (data1 data2 : Snapshot) : DiffResult :=
  let d1 := chaptersByKey data1.chapters
  let d2 := chaptersByKey data2.chapters
  let allKeys := (dictKeys d1 ∪ dictKeys d2).sort (· ≤ ·)
  let changes := allKeys.filterMap
    (fun k => classifyKey k (dictGet d1 k) (dictGet d2 k))
  { totalChanges := changes.length,
    added := (changes.filter (fun c => c.kind == ChangeKind.added)).length,
    deleted := (changes.filter (fun c => c.kind == ChangeKind.deleted)).length,
    modified := (changes.filter (fun c => c.kind == ChangeKind.modified)).length,
    changes := changes }

/-- Models `VersionService.get_version`: the version with the given id belonging
to the given project. -/
def getVersion (db : DB) (pid vid : Nat) : Option Version :=
  db.versions.find? (fun v => v.id == vid && v.projectId == pid)

/-- Models `ChapterStatus.value`. -/
def ChapterStatus.str : ChapterStatus → String
  | .pending => "pending"
  | .generated => "generated"
  | .reviewing => "reviewing"
  | .finalized => "finalized"

/-- The whole-project payload assembled by the rollback pre-snapshot step
(note: unlike `create_project_snapshot` it carries no `order_index`
key). -/
def buildCurrentSnapshot (db : DB) (pid : Nat) : Snapshot :=
  Snapshot.project
    ((db.chapters.filter (fun c => c.projectId == pid)).map
      (fun ch =>
        { id := RawId.valid ch.id, chapterNumber := some ch.chapterNumber,
          title := some ch.title, content := ch.content,
          status := some ch.status.str,
          parentId := ch.parentId.map uuidStr, orderIndex := none,
          objId := ch.id }))

/-- The per-row effect of one payload entry on one chapter row:
`chapter.title = ch_data.get("title", chapter.title)` and
`chapter.content = ch_data.get("content")`, applied when the entry's id
parses and equals the row's id. -/
def applyEntry (c : Chapter) (e : SnapEntry) : Chapter :=
  match e.id with
  | RawId.valid n =>
    if c.id == n then
      { c with title := e.title.getD c.title, content := e.content }
    else c
  | _ => c

/-- One element of the `restored_chapters` result list. -/
structure RestoredChapter where
  id : Nat
  chapterNumber : String
  action : String
deriving DecidableEq, Repr

/-- The restore loop of `rollback_to_version`: for each payload entry,
skip it when its id is missing, empty, or unparsable; otherwise look the
chapter up by id (with no project scoping) and, when found, overwrite its
title and content in place.  Chapter ids are a primary key, so updating
every row with the matching id coincides with updating the single row
`scalar_one_or_none` returns. -/
def restoreChapters :
    List Chapter → List SnapEntry → List Chapter × List RestoredChapter
  | chs, [] => (chs, [])
  | chs, e :: rest =>
    match e.id with
    | RawId.valid n =>
      match chs.find? (fun c => c.id == n) with
      | some c0 =>
        let chs2 := chs.map (fun c => applyEntry c e)
        let res := restoreChapters chs2 rest
        (res.1,
          { id := n, chapterNumber := c0.chapterNumber,
            action := "updated" } :: res.2)
      | none => restoreChapters chs rest
    | _ => restoreChapters chs rest

/-- The success payload of `rollback_to_version`. -/
structure RollbackOk where
  targetVersionNumber : Nat
  newVersionId : Nat
  newVersionNumber : Nat
  preSnapshotId : Option Nat
  restoredChapters : List RestoredChapter
deriving DecidableEq, Repr

/-- Models `VersionService.rollback_to_version`.  Returns `none` (the
`success: False` dict) when the target version does not exist for the
project, otherwise optionally records a pre-snapshot, overwrites the
chapters named by the target payload, and records the post-rollback
version carrying the target's payload. -/
def rollbackToVersion (db : DB) (pid vid uid : Nat)
    (createPreSnapshot : Bool) : Option RollbackOk × DB :=
  match getVersion db pid vid with
  | none => (none, db)
  | some target =>
    let step1 :=
      if createPreSnapshot then
        let pre := createVersion db pid none (some uid) ChangeType.rollback
          (buildCurrentSnapshot db pid)
          (some ("auto snapshot before rollback to version "
            ++ toString target.versionNumber))
        (some pre.1.id, pre.2)
      else (none, db)
    let restored := restoreChapters step1.2.chapters target.snapshot.chapters
    let db2 := { step1.2 with chapters := restored.1 }
    let post := createVersion db2 pid none (some uid) ChangeType.rollback
      target.snapshot
      (some ("rollback to version " ++ toString target.versionNumber))
    (some { targetVersionNumber := target.versionNumber,
            newVersionId := post.1.id,
            newVersionNumber := post.1.versionNumber,
            preSnapshotId := step1.1,
            restoredChapters := restored.2 }, post.2)

/-- Apply every payload entry (in order) to one chapter row. -/
def applyMatching (es : List SnapEntry) (c : Chapter) : Chapter :=
  es.foldl applyEntry c

/-- The ids of the payload entries that parse as UUIDs. -/
def validIds (es : List SnapEntry) : List Nat :=
  es.filterMap (fun e =>
    match e.id with
    | RawId.valid n => some n
    | _ => none)

/-- The `restored_chapters` list assembled by the restore loop, expressed
against the initial chapter list. -/
def restoredList (chs : List Chapter) (es : List SnapEntry) :
    List RestoredChapter :=
  es.filterMap (fun e =>
    match e.id with
    | RawId.valid n =>
      (chs.find? (fun c => c.id == n)).map
        (fun c0 =>
          { id := n, chapterNumber := c0.chapterNumber, action := "updated" })
    | _ => none)

/-- Models `LOCK_TIMEOUT_MINUTES = 30`. -/
def lockTimeoutMinutes : Nat := 30

/-- The lock timeout in seconds (timestamps are modelled in seconds). -/
def lockTimeoutSecs : Nat := lockTimeoutMinutes * 60

/-- Models `_is_lock_expired`: true when `locked_at` is unset or
`now > locked_at + LOCK_TIMEOUT`. -/
def isLockExpired (c : Chapter) (now : Nat) : Bool :=
  match c.lockedAt with
  | none => true
  | some t => now > t + lockTimeoutSecs

/-- Models `select(Chapter).where(Chapter.id == chapter_id)`. -/
def findChapter (db : DB) (cid : Nat) : Option Chapter :=
  db.chapters.find? (fun c => c.id == cid)

/-- Models `select(User).where(User.id == uid)`. -/
def findUser (db : DB) (uid : Nat) : Option UserRec :=
  db.users.find? (fun u => u.id == uid)

/-- Models `_verify_project_member`: the caller's role in the project, if a
member. -/
def memberRole (db : DB) (pid uid : Nat) : Option ProjectMemberRole :=
  (db.members.find? (fun m => m.projectId == pid && m.userId == uid)).map
    (fun m => m.role)

/-- Write one chapter row back (id is a primary key). -/
def setChapter (db : DB) (ch : Chapter) : DB :=
  { db with chapters := db.chapters.map (fun c => if c.id == ch.id then ch else c) }

/-- The `require_editor` dependency: active user whose global role is
`editor` or `admin`. -/
def requireEditorOk (u : UserRec) : Bool :=
  u.isActive && (u.role == UserRole.admin || u.role == UserRole.editor)

/-- Outcome of a lock/unlock endpoint call: HTTP error or the
`LockResponse`.  `conflict` carries the `X-Locked-By` /
`X-Locked-At` / `X-Locked-By-Username` headers of the 409 response. -/
inductive LockOutcome where
  | notFound
  | forbidden (detail : String)
  | conflict (detail : String) (lockedBy : Option Nat) (lockedAt : Option Nat)
      (lockedByUsername : Option String)
  | ok (chapterId : Nat) (lockedBy : Option Nat) (lockedAt : Option Nat)
      (message : String)
deriving DecidableEq, Repr

/-- Models `POST /api/chapters/-chapter_id-/lock` (`lock_chapter`), with the
`require_editor` dependency folded in front. -/
def lockChapter (db : DB) (cid : Nat) (user : UserRec) (now : Nat) :
    LockOutcome × DB :=
  if !requireEditorOk user then (.forbidden "insufficient global role", db)
  else
    match findChapter db cid with
    | none => (.notFound, db)
    | some ch =>
      match memberRole db ch.projectId user.id with
      | none => (.forbidden "not a project member", db)
      | some role =>
        if role == ProjectMemberRole.reviewer then
          (.forbidden "reviewer role cannot lock", db)
        else if ch.lockedBy.isSome && !isLockExpired ch now then
          if ch.lockedBy != some user.id then
            (.conflict "chapter locked by another user" ch.lockedBy ch.lockedAt
              ((ch.lockedBy.bind (fun b => findUser db b)).map
                (fun u => u.username)), db)
          else
            let ch2 := { ch with lockedAt := some now }
            (.ok ch2.id (some user.id) (some now) "lock refreshed",
              setChapter db ch2)
        else
          let ch2 := { ch with lockedBy := some user.id, lockedAt := some now }
          (.ok ch2.id (some user.id) (some now) "chapter locked",
            setChapter db ch2)

/-- Models `POST /api/chapters/-chapter_id-/unlock` (`unlock_chapter`), with
the `require_editor` dependency folded in front. -/
def unlockChapter (db : DB) (cid : Nat) (user : UserRec) : LockOutcome × DB :=
  if !requireEditorOk user then (.forbidden "insufficient global role", db)
  else
    match findChapter db cid with
    | none => (.notFound, db)
    | some ch =>
      match memberRole db ch.projectId user.id with
      | none => (.forbidden "not a project member", db)
      | some role =>
        match ch.lockedBy with
        | none => (.ok ch.id none none "chapter not locked", db)
        | some locker =>
          if locker == user.id || role == ProjectMemberRole.owner then
            let ch2 := { ch with lockedBy := none, lockedAt := none }
            (.ok ch2.id none none "chapter unlocked", setChapter db ch2)
          else (.forbidden "only locker or owner can unlock", db)

/-- Models `_check_edit_permission`: can the caller write this chapter now?
Returns the flag and the error message. -/
def checkEditPermission (db : DB) (ch : Chapter) (user : UserRec)
    (now : Nat) : Bool × String :=
  match memberRole db ch.projectId user.id with
  | none => (false, "not a project member")
  | some role =>
    if role == ProjectMemberRole.reviewer then
      (false, "reviewer role cannot edit")
    else if ch.lockedBy.isSome && !isLockExpired ch now then
      if ch.lockedBy == some user.id then (true, "")
      else (false, "chapter locked by another user")
    else (true, "")

/-- Outcome of `update_chapter_content`. -/
inductive UpdateOutcome where
  | notFound
  | forbidden (detail : String)
  | conflict (detail : String)
  | ok (chapterId : Nat) (status : ChapterStatus) (lockedBy : Option Nat)
deriving DecidableEq, Repr

/-- Models `PUT /api/chapters/-chapter_id-/content` (`update_chapter_content`):
check edit permission (409 on failure), implicitly acquire the lock when
unlocked or expired, overwrite the content, set the status to
`generated`, and create a chapter-scoped `manual_edit` version. -/
def updateChapterContent (db : DB) (cid : Nat) (user : UserRec)
    (content : String) (summary : Option String) (now : Nat) :
    UpdateOutcome × DB :=
  if !requireEditorOk user then (.forbidden "insufficient global role", db)
  else
    match findChapter db cid with
    | none => (.notFound, db)
    | some ch =>
      let perm := checkEditPermission db ch user now
      if !perm.1 then (.conflict perm.2, db)
      else
        let ch1 :=
          if !ch.lockedBy.isSome || isLockExpired ch now then
            { ch with lockedBy := some user.id, lockedAt := some now }
          else ch
        let ch2 := { ch1 with
          content := some content, status := ChapterStatus.generated }
        let db1 := setChapter db ch2
        let snap := Snapshot.chapterEdit (uuidStr ch.id) ch.chapterNumber
          ch.title ch.content content
        let step := createVersion db1 ch.projectId (some ch.id) (some user.id)
          ChangeType.manualEdit snap (some (summary.getD "manual edit"))
        (.ok ch2.id ch2.status ch2.lockedBy, step.2)

/-- The `STATUS_TRANSITIONS` table: for a (current, target) pair, the
project roles allowed to perform it (`none` = transition absent from the
table). -/
def statusTransitions (cur tgt : ChapterStatus) :
    Option (List ProjectMemberRole) :=
  match cur, tgt with
  | .pending, .generated => some [.owner, .editor]
  | .generated, .reviewing => some [.owner, .editor]
  | .reviewing, .finalized => some [.owner, .reviewer]
  | .reviewing, .generated => some [.owner, .reviewer]
  | _, _ => none

/-- Models `_validate_status_transition`: global admins may do anything; others
must find the transition in the table with a permitted role. -/
def validateStatusTransition (cur tgt : ChapterStatus)
    (projectRole : ProjectMemberRole) (globalRole : UserRole) :
    Bool × String :=
  if globalRole == UserRole.admin then (true, "")
  else
    match statusTransitions cur tgt with
    | none => (false, "transition not allowed")
    | some roles =>
      if roles.contains projectRole then (true, "")
      else (false, "role not permitted for this transition")

/-- Outcome of `update_chapter_status`. -/
inductive StatusOutcome where
  | notFound
  | forbidden (detail : String)
  | ok (oldStatus newStatus : ChapterStatus)
deriving DecidableEq, Repr

/-- Models `PUT /api/chapters/-chapter_id-/status` (`update_chapter_status`),
with the `get_current_active_user` dependency folded in front. -/
def updateChapterStatus (db : DB) (cid : Nat) (tgt : ChapterStatus)
    (user : UserRec) : StatusOutcome × DB :=
  if !user.isActive then (.forbidden "inactive user", db)
  else
    match findChapter db cid with
    | none => (.notFound, db)
    | some ch =>
      match memberRole db ch.projectId user.id with
      | none => (.forbidden "not a project member", db)
      | some role =>
        if !(validateStatusTransition ch.status tgt role user.role).1 then
          (.forbidden (validateStatusTransition ch.status tgt role user.role).2,
            db)
        else (.ok ch.status tgt, setChapter db { ch with status := tgt })

/-- Models `POST /api/projects/-pid-/versions/-vid-/rollback`: `require_editor`
dependency, then `verify_editor_role` (404 for non-members, 403 for
project reviewers), then the service call; a failed service result is
surfaced as HTTP 400, a successful one as HTTP 200.  Returns the HTTP
status code and the resulting state. -/
def rollbackEndpoint (db : DB) (pid vid : Nat) (user : UserRec)
    (createSnapshot : Bool) : Nat × DB :=
  if !requireEditorOk user then (403, db)
  else
    match memberRole db pid user.id with
    | none => (404, db)
    | some r =>
      if r != ProjectMemberRole.owner && r != ProjectMemberRole.editor then
        (403, db)
      else
        let res := rollbackToVersion db pid vid user.id createSnapshot
        match res.1 with
        | some _ => (200, res.2)
        | none => (400, res.2)

/-- A one-chapter demo project state used to instantiate the rollback
theorems. -/
def rollbackDemoTarget : Version :=
  { id := 50, projectId := 1, chapterId := none, versionNumber := 1,
    snapshot := Snapshot.project
      [{ id := RawId.valid 3, chapterNumber := some "1", title := some "T",
         content := some "draft A", status := some "generated",
         parentId := none, orderIndex := none, objId := 3 }],
    changeType := ChangeType.manualEdit, changeSummary := none,
    createdBy := some 7 }

/-- Demo state: one chapter (live content `draft B`), one stored version
(content `draft A`), one owner member. -/
def rollbackDemoDB : DB :=
  { chapters :=
      [{ id := 3, projectId := 1, parentId := none, chapterNumber := "1",
         title := "T", content := some "draft B",
         status := ChapterStatus.generated, orderIndex := 0,
         lockedBy := none, lockedAt := none }],
    versions := [rollbackDemoTarget],
    members := [⟨1, 7, ProjectMemberRole.owner⟩],
    users := [⟨7, "alice", UserRole.editor, true⟩],
    nextVid := 51 }

/-- Demo user: global editor. -/
def aliceRec : UserRec := ⟨7, "alice", UserRole.editor, true⟩

/-- Demo user: global editor, holds the demo lock. -/
def bobRec : UserRec := ⟨8, "bob", UserRole.editor, true⟩

/-- Demo chapter locked by bob at time 100. -/
def lockDemoCh20 : Chapter :=
  { id := 20, projectId := 1, parentId := none, chapterNumber := "1",
    title := "L", content := none, status := ChapterStatus.pending,
    orderIndex := 0, lockedBy := some 8, lockedAt := some 100 }

/-- Demo chapter, unlocked. -/
def lockDemoCh21 : Chapter :=
  { id := 21, projectId := 1, parentId := none, chapterNumber := "2",
    title := "U", content := none, status := ChapterStatus.pending,
    orderIndex := 1, lockedBy := none, lockedAt := none }

/-- Demo state for lock/unlock. -/
def lockDemoDB : DB :=
  { chapters := [lockDemoCh20, lockDemoCh21],
    versions := [],
    members := [⟨1, 7, ProjectMemberRole.editor⟩,
      ⟨1, 8, ProjectMemberRole.editor⟩],
    users := [aliceRec, bobRec],
    nextVid := 0 }

/-- Demo chapter already finalized. -/
def statusDemoCh30 : Chapter :=
  { id := 30, projectId := 1, parentId := none, chapterNumber := "1",
    title := "F", content := some "final text",
    status := ChapterStatus.finalized, orderIndex := 0,
    lockedBy := none, lockedAt := none }

/-- Demo chapter still pending. -/
def statusDemoCh31 : Chapter :=
  { id := 31, projectId := 1, parentId := none, chapterNumber := "2",
    title := "P", content := none, status := ChapterStatus.pending,
    orderIndex := 1, lockedBy := none, lockedAt := none }

/-- Demo state for status transitions: alice is a project editor and a
global editor (not admin). -/
def statusDemoDB : DB :=
  { chapters := [statusDemoCh30, statusDemoCh31],
    versions := [],
    members := [⟨1, 7, ProjectMemberRole.editor⟩],
    users := [aliceRec],
    nextVid := 0 }

/-- A chapter that belongs to project 2. -/
def crossDemoChapter : Chapter :=
  { id := 9, projectId := 2, parentId := none, chapterNumber := "1",
    title := "Other", content := some "other draft",
    status := ChapterStatus.pending, orderIndex := 0,
    lockedBy := none, lockedAt := none }

/-- A payload entry naming the project-2 chapter. -/
def crossDemoEntry : SnapEntry :=
  { id := RawId.valid 9, chapterNumber := some "1",
    title := some "Injected", content := some "injected content",
    status := none, parentId := none, orderIndex := none, objId := 9 }

/-- A version stored for project 1 whose payload names the project-2
chapter. -/
def crossDemoTarget : Version :=
  { id := 60, projectId := 1, chapterId := none, versionNumber := 1,
    snapshot := Snapshot.project [crossDemoEntry],
    changeType := ChangeType.manualEdit, changeSummary := none,
    createdBy := some 7 }

/-- Demo state for the cross-project rollback. -/
def crossDemoDB : DB :=
  { chapters := [crossDemoChapter],
    versions := [crossDemoTarget],
    members := [⟨1, 7, ProjectMemberRole.owner⟩],
    users := [aliceRec],
    nextVid := 61 }

/-! ## Theorems -/

lemma maxVersionNumber_eq_foldl (db : DB) (pid : Nat) :
    maxVersionNumber db pid = (versionNumbersFor db pid).foldl max 0 := by
  unfold maxVersionNumber maxVNumList versionNumbersFor
  rw [List.foldl_map]

lemma foldl_max_seqOneTo (k a : Nat) :
    List.foldl max a (seqOneTo k) = max a k := by
  induction k generalizing a with
  | zero => simp [seqOneTo]
  | succ k ih =>
    simp only [seqOneTo, List.foldl_append, ih, List.foldl_cons, List.foldl_nil]
    omega

lemma versionNumbersFor_createVersion (db : DB) (pid : Nat) (c : CreateCall) :
    versionNumbersFor
      (createVersion db c.projectId c.chapterId c.userId c.changeType
        c.snapshot c.summary).2 pid
    = versionNumbersFor db pid ++
        (if c.projectId == pid then [maxVersionNumber db c.projectId + 1]
         else []) := by
  unfold createVersion versionNumbersFor
  simp only [List.filter_append, List.map_append]
  by_cases h : c.projectId == pid <;> simp [h]

lemma applyCreateCalls_invariant (calls : List CreateCall) :
    ∀ (db : DB) (pid k : Nat),
      versionNumbersFor db pid = seqOneTo k →
      versionNumbersFor (applyCreateCalls db calls) pid
        = seqOneTo (k + (calls.filter (fun c => c.projectId == pid)).length) := by
  induction calls with
  | nil => intro db pid k h; simpa [applyCreateCalls] using h
  | cons c rest ih =>
    intro db pid k h
    have hstep := versionNumbersFor_createVersion db pid c
    by_cases hc : c.projectId == pid
    · have hmax : maxVersionNumber db c.projectId = k := by
        have : c.projectId = pid := by simpa using hc
        rw [this, maxVersionNumber_eq_foldl, h, foldl_max_seqOneTo]
        omega
      have hnext :
          versionNumbersFor
            (createVersion db c.projectId c.chapterId c.userId c.changeType
              c.snapshot c.summary).2 pid = seqOneTo (k + 1) := by
        rw [hstep, hmax, h]
        simp [hc, seqOneTo]
      have := ih _ pid (k + 1) hnext
      simpa [applyCreateCalls, List.foldl_cons, List.filter_cons, hc,
        Nat.add_assoc, Nat.add_comm, Nat.add_left_comm] using this
    · have hnext :
          versionNumbersFor
            (createVersion db c.projectId c.chapterId c.userId c.changeType
              c.snapshot c.summary).2 pid = seqOneTo k := by
        rw [hstep, h]; simp [hc]
      have := ih _ pid k hnext
      simpa [applyCreateCalls, List.foldl_cons, List.filter_cons, hc] using this

/-- C1: starting from a state with no versions for project `pid`, after any
finite sequence of `create_version` calls (each in its own critical
section) the version numbers stored for `pid` are exactly
`[1, 2, ..., N]` where `N` is the number of calls targeting `pid`:
unique, dense, strictly increasing from 1, never reused. -/
theorem createVersion_numbers_dense (calls : List CreateCall) (db : DB)
    (pid : Nat) (h : versionNumbersFor db pid = []) :
    versionNumbersFor (applyCreateCalls db calls) pid
      = seqOneTo (calls.filter (fun c => c.projectId == pid)).length := by
  have := applyCreateCalls_invariant calls db pid 0 (by simpa [seqOneTo] using h)
  simpa using this

/-- Concrete instantiation of `createVersion_numbers_dense`: three calls for
project 1 interleaved with one for project 2, starting from the empty
state, give project 1 the numbers `[1, 2, 3]`. -/
theorem createVersion_numbers_dense_witness :
    versionNumbersFor (⟨[], [], [], [], 0⟩ : DB) 1 = [] ∧
    versionNumbersFor
      (applyCreateCalls (⟨[], [], [], [], 0⟩ : DB)
        [⟨1, none, some 7, ChangeType.manualEdit, Snapshot.project [], none⟩,
         ⟨2, none, none, ChangeType.aiGenerate, Snapshot.project [], none⟩,
         ⟨1, none, some 7, ChangeType.rollback, Snapshot.project [], none⟩,
         ⟨1, some 4, some 8, ChangeType.proofread, Snapshot.project [], none⟩]) 1
      = seqOneTo 3 :=
  ⟨by decide,
   by
    have h :=
      createVersion_numbers_dense
        [⟨1, none, some 7, ChangeType.manualEdit, Snapshot.project [], none⟩,
         ⟨2, none, none, ChangeType.aiGenerate, Snapshot.project [], none⟩,
         ⟨1, none, some 7, ChangeType.rollback, Snapshot.project [], none⟩,
         ⟨1, some 4, some 8, ChangeType.proofread, Snapshot.project [], none⟩]
        (⟨[], [], [], [], 0⟩ : DB) 1 (by decide)
    simpa using h⟩

lemma classifyKey_swap (k : String) (o1 o2 : Option SnapEntry) :
    (classifyKey k o2 o1).map (fun c => (c.chapterId, c.kind.swap))
      = (classifyKey k o1 o2).map (fun c => (c.chapterId, c.kind)) := by
  rcases o1 with _ | e1 <;> rcases o2 with _ | e2 <;>
    simp only [classifyKey, truthyOpt]
  · rfl
  · by_cases h2 : e2.truthy <;> simp [h2, ChangeKind.swap]
  · by_cases h1 : e1.truthy <;> simp [h1, ChangeKind.swap]
  · by_cases h1 : e1.truthy <;> by_cases h2 : e2.truthy
    · by_cases hc : e1.content ≠ e2.content ∨ e1.title ≠ e2.title
      · have hc2 : e2.content ≠ e1.content ∨ e2.title ≠ e1.title := by
          rcases hc with h | h
          · exact Or.inl (Ne.symm h)
          · exact Or.inr (Ne.symm h)
        simp [h1, h2, hc, hc2, ChangeKind.swap]
      · have hc2 : ¬(e2.content ≠ e1.content ∨ e2.title ≠ e1.title) := by
          intro h
          rcases h with h | h
          · exact hc (Or.inl (Ne.symm h))
          · exact hc (Or.inr (Ne.symm h))
        simp [h1, h2, hc, hc2]
    · simp [h1, h2, ChangeKind.swap]
    · simp [h1, h2, ChangeKind.swap]
    · simp [h1, h2]

lemma filterMap_map_congr {α β γ : Type} (L : List α)
    (f g : α → Option β) (p q : β → γ)
    (h : ∀ k ∈ L, (f k).map p = (g k).map q) :
    (L.filterMap f).map p = (L.filterMap g).map q := by
  induction L with
  | nil => simp
  | cons a L ih =>
    have ha := h a (List.mem_cons_self a L)
    have hrest : ∀ k ∈ L, (f k).map p = (g k).map q := fun k hk =>
      h k (List.mem_cons_of_mem a hk)
    rcases hf : f a with _ | b
    · rcases hg : g a with _ | b2
      · simpa [List.filterMap_cons, hf, hg] using ih hrest
      · rw [hf, hg] at ha; simp at ha
    · rcases hg : g a with _ | b2
      · rw [hf, hg] at ha; simp at ha
      · rw [hf, hg] at ha
        have hpq : p b = q b2 := by simpa using ha
        simp only [List.filterMap_cons, hf, hg, List.map_cons]
        rw [hpq, ih hrest]

lemma countT_map (l : List DiffChange) (f : DiffChange → ChangeKind)
    (t : ChangeKind) :
    ((l.map (fun c => (c.chapterId, f c))).filter
        (fun pr => pr.2 == t)).length
      = (l.filter (fun c => f c == t)).length := by
  induction l with
  | nil => rfl
  | cons c l ih =>
    simp only [List.map_cons, List.filter_cons]
    by_cases h : f c = t
    · simp [h, ih]
    · simp [h, ih]

lemma count_swap_eq (lB lA : List DiffChange)
    (hmap : lB.map (fun c => (c.chapterId, c.kind.swap))
      = lA.map (fun c => (c.chapterId, c.kind)))
    (t : ChangeKind) :
    (lB.filter (fun c => c.kind == t.swap)).length
      = (lA.filter (fun c => c.kind == t)).length := by
  have h1 : (lB.filter (fun c => c.kind == t.swap)).length
      = (lB.filter (fun c => c.kind.swap == t)).length := by
    congr 1
    apply List.filter_congr
    intro c _
    cases t <;> cases c.kind <;> rfl
  rw [h1, ← countT_map lB (fun c => c.kind.swap) t, hmap,
    countT_map lA (fun c => c.kind) t]

/-- C6: `_compute_diff` is anti-symmetric in direction: swapping the two
snapshot arguments turns every `added` change into a `deleted` change on
the same key and vice versa, keeps every `modified` key `modified`, leaves
the list of changed chapter keys identical, and leaves all counts
(`added` ↔ `deleted` swapped, `modified` and `total_changes` equal)
matching. -/
theorem computeDiff_antisymmetric (data1 data2 : Snapshot) :
    ((computeDiff data2 data1).changes.map
        (fun c => (c.chapterId, c.kind.swap))
      = (computeDiff data1 data2).changes.map
          (fun c => (c.chapterId, c.kind))) ∧
    ((computeDiff data2 data1).changes.map (fun c => c.chapterId)
      = (computeDiff data1 data2).changes.map (fun c => c.chapterId)) ∧
    (computeDiff data2 data1).added = (computeDiff data1 data2).deleted ∧
    (computeDiff data2 data1).deleted = (computeDiff data1 data2).added ∧
    (computeDiff data2 data1).modified = (computeDiff data1 data2).modified ∧
    (computeDiff data2 data1).totalChanges
      = (computeDiff data1 data2).totalChanges := by
  have hkeys :
      (dictKeys (chaptersByKey data2.chapters) ∪
        dictKeys (chaptersByKey data1.chapters)).sort (· ≤ ·)
      = (dictKeys (chaptersByKey data1.chapters) ∪
          dictKeys (chaptersByKey data2.chapters)).sort (· ≤ ·) := by
    rw [Finset.union_comm]
  have hmap :
      (computeDiff data2 data1).changes.map
          (fun c => (c.chapterId, c.kind.swap))
        = (computeDiff data1 data2).changes.map
            (fun c => (c.chapterId, c.kind)) := by
    show (((dictKeys (chaptersByKey data2.chapters) ∪
        dictKeys (chaptersByKey data1.chapters)).sort (· ≤ ·)).filterMap
          (fun k => classifyKey k (dictGet (chaptersByKey data2.chapters) k)
            (dictGet (chaptersByKey data1.chapters) k))).map
          (fun c => (c.chapterId, c.kind.swap))
      = (((dictKeys (chaptersByKey data1.chapters) ∪
        dictKeys (chaptersByKey data2.chapters)).sort (· ≤ ·)).filterMap
          (fun k => classifyKey k (dictGet (chaptersByKey data1.chapters) k)
            (dictGet (chaptersByKey data2.chapters) k))).map
          (fun c => (c.chapterId, c.kind))
    rw [hkeys]
    exact filterMap_map_congr _ _ _ _ _
      (fun k _ => classifyKey_swap k _ _)
  refine ⟨hmap, ?_, ?_, ?_, ?_, ?_⟩
  · have := congrArg (List.map Prod.fst) hmap
    simpa [Function.comp] using this
  · exact count_swap_eq _ _ hmap ChangeKind.deleted
  · exact count_swap_eq _ _ hmap ChangeKind.added
  · exact count_swap_eq _ _ hmap ChangeKind.modified
  · have := congrArg List.length hmap
    simpa using this

lemma applyEntry_id (c : Chapter) (e : SnapEntry) :
    (applyEntry c e).id = c.id := by
  unfold applyEntry
  split
  · split <;> rfl
  · rfl

lemma applyEntry_frame (c : Chapter) (e : SnapEntry) :
    (applyEntry c e).id = c.id ∧
    (applyEntry c e).projectId = c.projectId ∧
    (applyEntry c e).parentId = c.parentId ∧
    (applyEntry c e).chapterNumber = c.chapterNumber ∧
    (applyEntry c e).status = c.status ∧
    (applyEntry c e).orderIndex = c.orderIndex ∧
    (applyEntry c e).lockedBy = c.lockedBy ∧
    (applyEntry c e).lockedAt = c.lockedAt := by
  unfold applyEntry
  split
  · split <;> exact ⟨rfl, rfl, rfl, rfl, rfl, rfl, rfl, rfl⟩
  · exact ⟨rfl, rfl, rfl, rfl, rfl, rfl, rfl, rfl⟩

lemma applyEntry_not_matching (c : Chapter) (e : SnapEntry)
    (h : ∀ n, e.id = RawId.valid n → c.id ≠ n) : applyEntry c e = c := by
  unfold applyEntry
  split
  · rename_i n heq
    have hne : (c.id == n) = false := beq_eq_false_iff_ne.mpr (h n heq)
    simp [hne]
  · rfl

lemma restoreChapters_fst (es : List SnapEntry) :
    ∀ chs : List Chapter,
      (restoreChapters chs es).1 = chs.map (applyMatching es) := by
  induction es with
  | nil =>
    intro chs
    show chs = chs.map (applyMatching [])
    have h2 : chs.map (applyMatching []) = chs.map id :=
      List.map_congr_left (fun c _ => rfl)
    rw [h2, List.map_id]
  | cons e rest ih =>
    intro chs
    cases he : e.id with
    | valid n =>
      cases hf : chs.find? (fun c => c.id == n) with
      | some c0 =>
        have h1 : (restoreChapters chs (e :: rest)).1
            = (restoreChapters (chs.map (fun c => applyEntry c e)) rest).1 := by
          simp [restoreChapters, he, hf]
        rw [h1, ih, List.map_map]
        apply List.map_congr_left
        intro c _
        show applyMatching rest (applyEntry c e) = applyMatching (e :: rest) c
        rfl
      | none =>
        have h1 : restoreChapters chs (e :: rest) = restoreChapters chs rest := by
          simp [restoreChapters, he, hf]
        rw [h1, ih]
        apply List.map_congr_left
        intro c hc
        have hne : ¬(c.id == n) = true := by
          intro hcn
          have := List.find?_eq_none.mp hf c hc
          exact this hcn
        show applyMatching rest c = applyMatching (e :: rest) c
        have : applyEntry c e = c := by
          apply applyEntry_not_matching
          intro m hm
          rw [he] at hm
          cases hm
          intro hcm
          exact hne (by simpa using hcm)
        show applyMatching rest c = applyMatching rest (applyEntry c e)
        rw [this]
    | missing =>
      have h1 : restoreChapters chs (e :: rest) = restoreChapters chs rest := by
        simp [restoreChapters, he]
      rw [h1, ih]
      apply List.map_congr_left
      intro c _
      show applyMatching rest c = applyMatching rest (applyEntry c e)
      rw [applyEntry_not_matching c e (by intro n hn; rw [he] at hn; cases hn)]
    | null =>
      have h1 : restoreChapters chs (e :: rest) = restoreChapters chs rest := by
        simp [restoreChapters, he]
      rw [h1, ih]
      apply List.map_congr_left
      intro c _
      show applyMatching rest c = applyMatching rest (applyEntry c e)
      rw [applyEntry_not_matching c e (by intro n hn; rw [he] at hn; cases hn)]
    | invalid s =>
      have h1 : restoreChapters chs (e :: rest) = restoreChapters chs rest := by
        simp [restoreChapters, he]
      rw [h1, ih]
      apply List.map_congr_left
      intro c _
      show applyMatching rest c = applyMatching rest (applyEntry c e)
      rw [applyEntry_not_matching c e (by intro n hn; rw [he] at hn; cases hn)]

lemma validIds_cons_valid (e : SnapEntry) (rest : List SnapEntry) (n : Nat)
    (h : e.id = RawId.valid n) :
    validIds (e :: rest) = n :: validIds rest := by
  simp [validIds, List.filterMap_cons, h]

lemma validIds_cons_skip (e : SnapEntry) (rest : List SnapEntry)
    (h : ∀ n, e.id ≠ RawId.valid n) :
    validIds (e :: rest) = validIds rest := by
  cases he : e.id
  · simp [validIds, List.filterMap_cons, he]
  · simp [validIds, List.filterMap_cons, he]
  · simp [validIds, List.filterMap_cons, he]
  · exact absurd he (h _)

lemma applyMatching_frame (es : List SnapEntry) : ∀ c : Chapter,
    (applyMatching es c).id = c.id ∧
    (applyMatching es c).projectId = c.projectId ∧
    (applyMatching es c).parentId = c.parentId ∧
    (applyMatching es c).chapterNumber = c.chapterNumber ∧
    (applyMatching es c).status = c.status ∧
    (applyMatching es c).orderIndex = c.orderIndex ∧
    (applyMatching es c).lockedBy = c.lockedBy ∧
    (applyMatching es c).lockedAt = c.lockedAt := by
  induction es with
  | nil => intro c; exact ⟨rfl, rfl, rfl, rfl, rfl, rfl, rfl, rfl⟩
  | cons e rest ih =>
    intro c
    obtain ⟨a1, a2, a3, a4, a5, a6, a7, a8⟩ := applyEntry_frame c e
    obtain ⟨b1, b2, b3, b4, b5, b6, b7, b8⟩ := ih (applyEntry c e)
    exact ⟨b1.trans a1, b2.trans a2, b3.trans a3, b4.trans a4, b5.trans a5,
      b6.trans a6, b7.trans a7, b8.trans a8⟩

lemma applyMatching_of_not_mem (es : List SnapEntry) : ∀ c : Chapter,
    c.id ∉ validIds es → applyMatching es c = c := by
  induction es with
  | nil => intro c _; rfl
  | cons e rest ih =>
    intro c hc
    show applyMatching rest (applyEntry c e) = c
    by_cases hv : ∃ n, e.id = RawId.valid n
    · obtain ⟨n, hn⟩ := hv
      rw [validIds_cons_valid e rest n hn] at hc
      have hne : c.id ≠ n := fun h => hc (h ▸ List.mem_cons_self _ _)
      have hstep : applyEntry c e = c := by
        apply applyEntry_not_matching
        intro m hm
        rw [hn] at hm
        cases hm
        exact hne
      rw [hstep]
      exact ih c (fun h => hc (List.mem_cons_of_mem _ h))
    · push_neg at hv
      rw [validIds_cons_skip e rest hv] at hc
      rw [applyEntry_not_matching c e (fun n hn => absurd hn (hv n))]
      exact ih c hc

lemma applyMatching_applied (es : List SnapEntry) :
    ∀ (e : SnapEntry) (n : Nat) (c : Chapter), e ∈ es →
      e.id = RawId.valid n → c.id = n → (validIds es).Nodup →
      (applyMatching es c).title = e.title.getD c.title ∧
      (applyMatching es c).content = e.content := by
  induction es with
  | nil => intro e n c he; cases he
  | cons e0 rest ih =>
    intro e n c hmem hid hcid hnodup
    rcases List.mem_cons.mp hmem with heq | hmemr
    · subst heq
      have happly : applyEntry c e
          = { c with title := e.title.getD c.title, content := e.content } := by
        unfold applyEntry
        rw [hid]
        simp [hcid]
      show (applyMatching rest (applyEntry c e)).title = _ ∧
        (applyMatching rest (applyEntry c e)).content = _
      rw [happly]
      have hnotin : c.id ∉ validIds rest := by
        rw [validIds_cons_valid e rest n hid] at hnodup
        rw [hcid]
        exact (List.nodup_cons.mp hnodup).1
      rw [applyMatching_of_not_mem rest
        { c with title := e.title.getD c.title, content := e.content } hnotin]
      exact ⟨rfl, rfl⟩
    · have htail : (validIds rest).Nodup := by
        by_cases hv : ∃ m, e0.id = RawId.valid m
        · obtain ⟨m, hm⟩ := hv
          rw [validIds_cons_valid e0 rest m hm] at hnodup
          exact (List.nodup_cons.mp hnodup).2
        · push_neg at hv
          rw [validIds_cons_skip e0 rest hv] at hnodup
          exact hnodup
      have hnmem : n ∈ validIds rest := by
        apply List.mem_filterMap.mpr
        exact ⟨e, hmemr, by rw [hid]⟩
      have hstep : applyEntry c e0 = c := by
        apply applyEntry_not_matching
        intro m hm hcm
        rw [validIds_cons_valid e0 rest m hm] at hnodup
        have h1 := (List.nodup_cons.mp hnodup).1
        have hmn : m = n := by rw [← hcm, hcid]
        rw [hmn] at h1
        exact h1 hnmem
      show (applyMatching rest (applyEntry c e0)).title = _ ∧
        (applyMatching rest (applyEntry c e0)).content = _
      rw [hstep]
      exact ih e n c hmemr hid hcid htail

lemma find?_id_map (l : List Chapter) (f : Chapter → Chapter)
    (hid : ∀ c, (f c).id = c.id) (n : Nat) :
    (l.map f).find? (fun c => c.id == n)
      = (l.find? (fun c => c.id == n)).map f := by
  induction l with
  | nil => rfl
  | cons c l ih =>
    by_cases h : (c.id == n) = true
    · have h2 : ((f c).id == n) = true := by rw [hid]; exact h
      rw [List.map_cons,
        List.find?_cons_of_pos (p := fun c2 => c2.id == n) (l.map f) h2,
        List.find?_cons_of_pos (p := fun c2 => c2.id == n) l h]
      rfl
    · have h2 : ¬((f c).id == n) = true := by rw [hid]; exact h
      rw [List.map_cons,
        List.find?_cons_of_neg (p := fun c2 => c2.id == n) (l.map f)
          (by simpa using h2),
        List.find?_cons_of_neg (p := fun c2 => c2.id == n) l
          (by simpa using h), ih]

lemma restoredList_map (es : List SnapEntry) (chs : List Chapter)
    (f : Chapter → Chapter) (hid : ∀ c, (f c).id = c.id)
    (hcn : ∀ c, (f c).chapterNumber = c.chapterNumber) :
    restoredList (chs.map f) es = restoredList chs es := by
  unfold restoredList
  congr 1
  funext e
  cases he : e.id
  · rfl
  · rfl
  · rfl
  · rename_i n
    show (((chs.map f).find? (fun c => c.id == n)).map
        (fun c0 => ({ id := n, chapterNumber := c0.chapterNumber, action := "updated" } : RestoredChapter)))
      = ((chs.find? (fun c => c.id == n)).map
        (fun c0 => ({ id := n, chapterNumber := c0.chapterNumber, action := "updated" } : RestoredChapter)))
    rw [find?_id_map chs f hid n]
    cases hfind : chs.find? (fun c => c.id == n)
    · rfl
    · rename_i c0
      simp [hcn]

lemma restoreChapters_snd (es : List SnapEntry) :
    ∀ chs : List Chapter,
      (restoreChapters chs es).2 = restoredList chs es := by
  induction es with
  | nil => intro chs; rfl
  | cons e rest ih =>
    intro chs
    cases he : e.id
    case valid n =>
      cases hf : chs.find? (fun c => c.id == n)
      case some c0 =>
        have h1 : (restoreChapters chs (e :: rest)).2
            = ({ id := n, chapterNumber := c0.chapterNumber, action := "updated" } : RestoredChapter)
              :: (restoreChapters (chs.map (fun c => applyEntry c e)) rest).2 := by
          simp [restoreChapters, he, hf]
        rw [h1, ih]
        rw [restoredList_map rest chs (fun c => applyEntry c e)
          (fun c => applyEntry_id c e)
          (fun c => (applyEntry_frame c e).2.2.2.1)]
        simp [restoredList, List.filterMap_cons, he, hf]
      case none =>
        have h1 : restoreChapters chs (e :: rest) = restoreChapters chs rest := by
          simp [restoreChapters, he, hf]
        rw [h1, ih]
        simp [restoredList, List.filterMap_cons, he, hf]
    case missing =>
      have h1 : restoreChapters chs (e :: rest) = restoreChapters chs rest := by
        simp [restoreChapters, he]
      rw [h1, ih]
      simp [restoredList, List.filterMap_cons, he]
    case null =>
      have h1 : restoreChapters chs (e :: rest) = restoreChapters chs rest := by
        simp [restoreChapters, he]
      rw [h1, ih]
      simp [restoredList, List.filterMap_cons, he]
    case invalid s =>
      have h1 : restoreChapters chs (e :: rest) = restoreChapters chs rest := by
        simp [restoreChapters, he]
      rw [h1, ih]
      simp [restoredList, List.filterMap_cons, he]

lemma maxVNumList_append (vs : List Version) (v : Version) (pid : Nat) :
    maxVNumList (vs ++ [v]) pid
      = if v.projectId == pid then max (maxVNumList vs pid) v.versionNumber
        else maxVNumList vs pid := by
  unfold maxVNumList
  rw [List.filter_append]
  by_cases h : (v.projectId == pid) = true <;>
    simp [h, List.foldl_append]

lemma rollback_chapters_eq (db : DB) (pid vid uid : Nat) (pre : Bool)
    (target : Version) (hget : getVersion db pid vid = some target) :
    (rollbackToVersion db pid vid uid pre).2.chapters
      = db.chapters.map (applyMatching target.snapshot.chapters) := by
  cases pre <;>
    simp only [rollbackToVersion, hget, Bool.false_eq_true, if_false, if_true,
      reduceIte] <;>
    exact restoreChapters_fst _ _

lemma rollback_success (db : DB) (pid vid uid : Nat) (pre : Bool)
    (target : Version) (hget : getVersion db pid vid = some target) :
    ∃ ok : RollbackOk,
      (rollbackToVersion db pid vid uid pre).1 = some ok ∧
      ok.targetVersionNumber = target.versionNumber ∧
      ok.restoredChapters = restoredList db.chapters target.snapshot.chapters := by
  cases pre <;>
    simp only [rollbackToVersion, hget, Bool.false_eq_true, if_false, if_true,
      reduceIte] <;>
    exact ⟨_, rfl, rfl, restoreChapters_snd _ _⟩

lemma rollback_versions_pre (db : DB) (pid vid uid : Nat)
    (target : Version) (hget : getVersion db pid vid = some target) :
    ∃ preV postV : Version,
      (rollbackToVersion db pid vid uid true).2.versions
        = db.versions ++ [preV, postV] ∧
      preV.projectId = pid ∧ preV.changeType = ChangeType.rollback ∧
      preV.snapshot = buildCurrentSnapshot db pid ∧
      postV.projectId = pid ∧ postV.changeType = ChangeType.rollback ∧
      postV.snapshot = target.snapshot := by
  simp only [rollbackToVersion, hget, createVersion, reduceIte,
    List.append_assoc]
  exact ⟨_, _, rfl, rfl, rfl, rfl, rfl, rfl, rfl⟩

/-- C2: a `rollback_to_version` call with `create_pre_snapshot = True`
whose target exists succeeds; it grows the project's version list by
exactly two rows (a pre-snapshot of the live chapters and a post-snapshot
carrying the target's payload, both with change type `rollback`); and
every payload entry whose id parses and resolves to an existing chapter
leaves that chapter's live content equal to the entry's content (entries
with missing, unparsable, or unresolvable ids are skipped while the call
still succeeds).  The payload's parsed ids are assumed pairwise distinct,
as holds for every whole-project payload the system itself persists
(chapter ids are a primary key). -/
theorem rollback_with_pre_snapshot (db : DB) (pid vid uid : Nat)
    (target : Version) (hget : getVersion db pid vid = some target)
    (hnodup : (validIds target.snapshot.chapters).Nodup) :
    (∃ ok : RollbackOk, (rollbackToVersion db pid vid uid true).1 = some ok) ∧
    (versionNumbersFor (rollbackToVersion db pid vid uid true).2 pid).length
      = (versionNumbersFor db pid).length + 2 ∧
    (∃ preV postV : Version,
      (rollbackToVersion db pid vid uid true).2.versions
        = db.versions ++ [preV, postV] ∧
      preV.projectId = pid ∧ preV.changeType = ChangeType.rollback ∧
      preV.snapshot = buildCurrentSnapshot db pid ∧
      postV.projectId = pid ∧ postV.changeType = ChangeType.rollback ∧
      postV.snapshot = target.snapshot) ∧
    (∀ e ∈ target.snapshot.chapters, ∀ n : Nat, e.id = RawId.valid n →
      ∀ c ∈ db.chapters, c.id = n →
        ∃ c2 ∈ (rollbackToVersion db pid vid uid true).2.chapters,
          c2.id = n ∧ c2.content = e.content) := by
  obtain ⟨ok, hok, -, -⟩ := rollback_success db pid vid uid true target hget
  obtain ⟨preV, postV, hver, hp1, hp2, hp3, hq1, hq2, hq3⟩ :=
    rollback_versions_pre db pid vid uid target hget
  refine ⟨⟨ok, hok⟩, ?_, ⟨preV, postV, hver, hp1, hp2, hp3, hq1, hq2, hq3⟩, ?_⟩
  · unfold versionNumbersFor
    rw [hver, List.filter_append, List.map_append, List.length_append]
    have : (List.filter (fun v => v.projectId == pid) [preV, postV]).length = 2 := by
      simp [List.filter, hp1, hq1]
    simp only [List.length_map]
    omega
  · intro e he n hid c hc hcid
    refine ⟨applyMatching target.snapshot.chapters c, ?_, ?_, ?_⟩
    · rw [rollback_chapters_eq db pid vid uid true target hget]
      exact List.mem_map_of_mem _ hc
    · rw [(applyMatching_frame target.snapshot.chapters c).1, hcid]
    · exact (applyMatching_applied target.snapshot.chapters e n c he hid hcid
        hnodup).2

/-- Concrete instantiation of `rollback_with_pre_snapshot`: a one-chapter
project rolled back to a stored version restores the chapter's content
and appends exactly the two rollback versions. -/
theorem rollback_with_pre_snapshot_witness :
    (getVersion rollbackDemoDB 1 50
        = some rollbackDemoTarget) ∧
    ((validIds rollbackDemoTarget.snapshot.chapters).Nodup) ∧
    ((versionNumbersFor (rollbackToVersion rollbackDemoDB 1 50 7 true).2 1).length
      = (versionNumbersFor rollbackDemoDB 1).length + 2) := by
  refine ⟨by decide, by decide, ?_⟩
  exact (rollback_with_pre_snapshot rollbackDemoDB 1 50 7 rollbackDemoTarget
    (by decide) (by decide)).2.1

lemma forall₂_map_self {α : Type} {R : α → α → Prop} (f : α → α)
    (l : List α) (h : ∀ a ∈ l, R a (f a)) : List.Forall₂ R l (l.map f) := by
  induction l with
  | nil => exact List.Forall₂.nil
  | cons a l ih =>
    exact List.Forall₂.cons (h a (List.mem_cons_self a l))
      (ih (fun b hb => h b (List.mem_cons_of_mem a hb)))

/-- C7: a rollback with an existing target writes only `title` and
`content`: every chapter row keeps its id, project, parent, number,
status, ordering index and both lock fields, and every chapter whose id
is not named by a parsable payload entry is entirely unchanged (in
particular every chapter of the project not named in the payload). -/
theorem rollback_restores_only_title_content (db : DB) (pid vid uid : Nat)
    (pre : Bool) (target : Version)
    (hget : getVersion db pid vid = some target) :
    List.Forall₂ (fun c c2 =>
      c2.id = c.id ∧ c2.projectId = c.projectId ∧ c2.parentId = c.parentId ∧
      c2.chapterNumber = c.chapterNumber ∧ c2.status = c.status ∧
      c2.orderIndex = c.orderIndex ∧ c2.lockedBy = c.lockedBy ∧
      c2.lockedAt = c.lockedAt ∧
      (c.id ∉ validIds target.snapshot.chapters → c2 = c))
      db.chapters (rollbackToVersion db pid vid uid pre).2.chapters := by
  rw [rollback_chapters_eq db pid vid uid pre target hget]
  apply forall₂_map_self
  intro c _
  obtain ⟨h1, h2, h3, h4, h5, h6, h7, h8⟩ :=
    applyMatching_frame target.snapshot.chapters c
  exact ⟨h1, h2, h3, h4, h5, h6, h7, h8,
    fun hnm => applyMatching_of_not_mem target.snapshot.chapters c hnm⟩

/-- Concrete instantiation of `rollback_restores_only_title_content` on
the demo state. -/
theorem rollback_restores_only_title_content_witness :
    List.Forall₂ (fun c c2 =>
      c2.id = c.id ∧ c2.projectId = c.projectId ∧ c2.parentId = c.parentId ∧
      c2.chapterNumber = c.chapterNumber ∧ c2.status = c.status ∧
      c2.orderIndex = c.orderIndex ∧ c2.lockedBy = c.lockedBy ∧
      c2.lockedAt = c.lockedAt ∧
      (c.id ∉ validIds rollbackDemoTarget.snapshot.chapters → c2 = c))
      rollbackDemoDB.chapters
      (rollbackToVersion rollbackDemoDB 1 50 7 true).2.chapters :=
  rollback_restores_only_title_content rollbackDemoDB 1 50 7 true
    rollbackDemoTarget (by decide)

/-- C8 (amended): when the target version id does not exist for the
project, the service returns failure without touching any state, and the
HTTP endpoint surfaces it as a 400 Bad Request (not a 404 NotFound),
leaving every chapter and version untouched. -/
theorem rollbackEndpoint_missing_target (db : DB) (pid vid : Nat)
    (user : UserRec) (b : Bool) (hreq : requireEditorOk user = true)
    (r : ProjectMemberRole) (hrole : memberRole db pid user.id = some r)
    (hr : r = ProjectMemberRole.owner ∨ r = ProjectMemberRole.editor)
    (hget : getVersion db pid vid = none) :
    rollbackToVersion db pid vid user.id b = (none, db) ∧
    rollbackEndpoint db pid vid user b = (400, db) := by
  have hserv : rollbackToVersion db pid vid user.id b = (none, db) := by
    simp [rollbackToVersion, hget]
  refine ⟨hserv, ?_⟩
  rcases hr with hr | hr <;> subst hr <;>
    simp [rollbackEndpoint, hreq, hrole, hserv]

/-- Concrete instantiation of `rollbackEndpoint_missing_target`. -/
theorem rollbackEndpoint_missing_target_witness :
    rollbackEndpoint rollbackDemoDB 1 99
        ⟨7, "alice", UserRole.editor, true⟩ true = (400, rollbackDemoDB) :=
  (rollbackEndpoint_missing_target rollbackDemoDB 1 99
    ⟨7, "alice", UserRole.editor, true⟩ true (by decide)
    ProjectMemberRole.owner (by decide) (Or.inl rfl) (by decide)).2

/-- C8 counterexample to the claim as stated: on a concrete state where
the target version id does not exist for the project, the rollback
endpoint answers HTTP 400, not the 404 a `NotFound` failure would
carry. -/
theorem rollbackEndpoint_missing_target_not_404 :
    (rollbackEndpoint rollbackDemoDB 1 99
        ⟨7, "alice", UserRole.editor, true⟩ true).1 = 400 ∧
    (rollbackEndpoint rollbackDemoDB 1 99
        ⟨7, "alice", UserRole.editor, true⟩ true).1 ≠ 404 := by
  decide

/-- C10: the restore loop resolves payload entry ids with no check that
the chapter belongs to the project being rolled back: an entry whose id
names a chapter of a different project overwrites that chapter's title
and content in place (the row keeps its foreign project id) and the
chapter is reported in `restored_chapters`. -/
theorem rollback_crosses_project_boundary (db : DB) (pid vid uid : Nat)
    (pre : Bool) (target : Version)
    (hget : getVersion db pid vid = some target)
    (hnodup : (validIds target.snapshot.chapters).Nodup)
    (e : SnapEntry) (he : e ∈ target.snapshot.chapters) (n : Nat)
    (hid : e.id = RawId.valid n) (c : Chapter) (hc : c ∈ db.chapters)
    (hcid : c.id = n) (hother : c.projectId ≠ pid) :
    (∃ c2 ∈ (rollbackToVersion db pid vid uid pre).2.chapters,
      c2.id = n ∧ c2.projectId = c.projectId ∧ c2.projectId ≠ pid ∧
      c2.title = e.title.getD c.title ∧ c2.content = e.content) ∧
    (∃ ok : RollbackOk, (rollbackToVersion db pid vid uid pre).1 = some ok ∧
      n ∈ ok.restoredChapters.map (fun r => r.id)) := by
  obtain ⟨ht, hco⟩ :=
    applyMatching_applied target.snapshot.chapters e n c he hid hcid hnodup
  obtain ⟨hfid, hfpid, -, -, -, -, -, -⟩ :=
    applyMatching_frame target.snapshot.chapters c
  constructor
  · refine ⟨applyMatching target.snapshot.chapters c, ?_, ?_, hfpid, ?_, ht, hco⟩
    · rw [rollback_chapters_eq db pid vid uid pre target hget]
      exact List.mem_map_of_mem _ hc
    · rw [hfid, hcid]
    · rw [hfpid]; exact hother
  · obtain ⟨ok, hok, -, hres⟩ := rollback_success db pid vid uid pre target hget
    refine ⟨ok, hok, ?_⟩
    rw [hres]
    have hfind : (db.chapters.find? (fun c2 => c2.id == n)).isSome := by
      rw [List.find?_isSome]
      exact ⟨c, hc, by simp [hcid]⟩
    obtain ⟨c0, hc0⟩ := Option.isSome_iff_exists.mp hfind
    have hmem :
        ({ id := n, chapterNumber := c0.chapterNumber, action := "updated" } : RestoredChapter)
          ∈ restoredList db.chapters target.snapshot.chapters := by
      apply List.mem_filterMap.mpr
      refine ⟨e, he, ?_⟩
      rw [hid]
      show (db.chapters.find? (fun c2 => c2.id == n)).map _ = _
      rw [hc0]
      rfl
    have := List.mem_map_of_mem (fun r : RestoredChapter => r.id) hmem
    simpa using this

lemma find?_set_list (cid : Nat) (ch ch2 : Chapter) (hid : ch2.id = ch.id) :
    ∀ l : List Chapter, l.find? (fun c => c.id == cid) = some ch →
      (l.map (fun c => if c.id == ch2.id then ch2 else c)).find?
        (fun c => c.id == cid) = some ch2 := by
  intro l
  induction l with
  | nil => intro h; simp at h
  | cons a l ih =>
    intro hfind
    have hch2cid : ch2.id = cid := by
      rw [hid]
      exact eq_of_beq
        (List.find?_some (p := fun c : Chapter => c.id == cid) hfind)
    rw [List.map_cons]
    by_cases ha : (a.id == cid) = true
    · simp only [List.find?, ha] at hfind
      have haeq : a = ch := by injection hfind
      have hcond : (a.id == ch2.id) = true := by
        rw [haeq, hid]
        exact beq_self_eq_true ch.id
      rw [if_pos hcond]
      have hpred : (ch2.id == cid) = true := by
        rw [hch2cid]
        exact beq_self_eq_true cid
      simp only [List.find?, hpred]
    · have ha2 : (a.id == cid) = false := by simpa using ha
      have hcond : ¬(a.id == ch2.id) = true := by
        intro hEQ
        apply ha
        have h1 : a.id = ch2.id := eq_of_beq hEQ
        rw [h1, hch2cid]
        exact beq_self_eq_true cid
      rw [if_neg hcond]
      simp only [List.find?, ha2] at hfind
      have ha3 : (a.id == cid) = false := ha2
      simp only [List.find?, ha3]
      exact ih hfind

/-- C3: an `Acquire` by a non-reviewer project member on a chapter that is
locked, unexpired, by a different user fails with `Conflict`; the 409
response exposes the current holder's id, the lock timestamp and the
holder's username, and the state (in particular the chapter's lock
fields) is returned unchanged. -/
theorem lockChapter_conflict_exposes_holder (db : DB) (cid : Nat)
    (user : UserRec) (now : Nat) (ch : Chapter)
    (hch : findChapter db cid = some ch)
    (hreq : requireEditorOk user = true)
    (r : ProjectMemberRole)
    (hrole : memberRole db ch.projectId user.id = some r)
    (hrev : r ≠ ProjectMemberRole.reviewer)
    (a : Nat) (hlb : ch.lockedBy = some a) (hne : a ≠ user.id)
    (hexp : isLockExpired ch now = false) :
    lockChapter db cid user now
      = (LockOutcome.conflict "chapter locked by another user" (some a)
          ch.lockedAt ((findUser db a).map (fun u => u.username)), db) := by
  have hrev2 : (r == ProjectMemberRole.reviewer) = false :=
    beq_eq_false_iff_ne.mpr hrev
  have hneq : (ch.lockedBy != some user.id) = true := by
    rw [hlb]
    simp [hne]
  simp [lockChapter, hreq, hch, hrole, hrev2, hlb, hexp, hneq, hne]

/-- C4: an `Acquire` by a non-reviewer project member on an existing
chapter that is unlocked, expired, or self-held succeeds: the caller is
the holder afterward and the lock timestamp is the current time. -/
theorem lockChapter_grants_when_free_or_own (db : DB) (cid : Nat)
    (user : UserRec) (now : Nat) (ch : Chapter)
    (hch : findChapter db cid = some ch)
    (hreq : requireEditorOk user = true)
    (r : ProjectMemberRole)
    (hrole : memberRole db ch.projectId user.id = some r)
    (hrev : r ≠ ProjectMemberRole.reviewer)
    (hfree : ch.lockedBy = none ∨ isLockExpired ch now = true ∨
      ch.lockedBy = some user.id) :
    (∃ msg, (lockChapter db cid user now).1
      = LockOutcome.ok ch.id (some user.id) (some now) msg) ∧
    (∃ ch2, findChapter (lockChapter db cid user now).2 cid = some ch2 ∧
      ch2.lockedBy = some user.id ∧ ch2.lockedAt = some now) := by
  have hrev2 : (r == ProjectMemberRole.reviewer) = false :=
    beq_eq_false_iff_ne.mpr hrev
  have hacq : ∀ hcond : (ch.lockedBy.isSome && !isLockExpired ch now) = false,
      (∃ msg, (lockChapter db cid user now).1
        = LockOutcome.ok ch.id (some user.id) (some now) msg) ∧
      (∃ ch2, findChapter (lockChapter db cid user now).2 cid = some ch2 ∧
        ch2.lockedBy = some user.id ∧ ch2.lockedAt = some now) := by
    intro hcond
    have heq : lockChapter db cid user now
        = (LockOutcome.ok ch.id (some user.id) (some now) "chapter locked",
           setChapter db
             { ch with lockedBy := some user.id, lockedAt := some now }) := by
      simp [lockChapter, hreq, hch, hrole, hrev2, hcond]
    rw [heq]
    exact ⟨⟨"chapter locked", rfl⟩,
      ⟨{ ch with lockedBy := some user.id, lockedAt := some now },
        find?_set_list cid ch
          { ch with lockedBy := some user.id, lockedAt := some now }
          rfl db.chapters hch, rfl, rfl⟩⟩
  rcases hfree with h | h | h
  · exact hacq (by rw [h]; rfl)
  · exact hacq (by rw [h]; simp)
  · by_cases hexp : isLockExpired ch now = true
    · exact hacq (by rw [hexp]; simp)
    · have hexp2 : isLockExpired ch now = false := by
        simpa using hexp
      have hcond : (ch.lockedBy.isSome && !isLockExpired ch now) = true := by
        rw [h, hexp2]
        rfl
      have hne2 : (ch.lockedBy != some user.id) = false := by
        rw [h]
        simp
      have heq : lockChapter db cid user now
          = (LockOutcome.ok ch.id (some user.id) (some now) "lock refreshed",
             setChapter db { ch with lockedAt := some now }) := by
        simp [lockChapter, hreq, hch, hrole, hrev2, hcond, hne2]
      rw [heq]
      refine ⟨⟨"lock refreshed", rfl⟩,
        ⟨{ ch with lockedAt := some now },
          find?_set_list cid ch { ch with lockedAt := some now } rfl
            db.chapters hch, ?_, rfl⟩⟩
      exact h

/-- C9: a `Release` by a project member: a no-op success when the chapter
is unlocked; when locked, the holder or a project owner clears both lock
fields and succeeds, while any other caller is rejected with `Forbidden`
and the state is unchanged. -/
theorem unlockChapter_release_rules (db : DB) (cid : Nat) (user : UserRec)
    (ch : Chapter) (hch : findChapter db cid = some ch)
    (hreq : requireEditorOk user = true)
    (r : ProjectMemberRole)
    (hrole : memberRole db ch.projectId user.id = some r) :
    (ch.lockedBy = none →
      unlockChapter db cid user
        = (LockOutcome.ok ch.id none none "chapter not locked", db)) ∧
    (∀ a, ch.lockedBy = some a →
      ((a = user.id ∨ r = ProjectMemberRole.owner) →
        (unlockChapter db cid user).1
          = LockOutcome.ok ch.id none none "chapter unlocked" ∧
        ∃ ch2, findChapter (unlockChapter db cid user).2 cid = some ch2 ∧
          ch2.lockedBy = none ∧ ch2.lockedAt = none) ∧
      (a ≠ user.id → r ≠ ProjectMemberRole.owner →
        unlockChapter db cid user
          = (LockOutcome.forbidden "only locker or owner can unlock", db))) := by
  constructor
  · intro h
    simp [unlockChapter, hreq, hch, hrole, h]
  · intro a ha
    constructor
    · intro hperm
      have hcond : (a == user.id || r == ProjectMemberRole.owner) = true := by
        rcases hperm with h | h <;> simp [h]
      have heq : unlockChapter db cid user
          = (LockOutcome.ok ch.id none none "chapter unlocked",
             setChapter db { ch with lockedBy := none, lockedAt := none }) := by
        simp [unlockChapter, hreq, hch, hrole, ha, hcond]
      rw [heq]
      exact ⟨rfl, ⟨{ ch with lockedBy := none, lockedAt := none },
        find?_set_list cid ch { ch with lockedBy := none, lockedAt := none }
          rfl db.chapters hch, rfl, rfl⟩⟩
    · intro hna hno
      have hcond : (a == user.id || r == ProjectMemberRole.owner) = false := by
        rw [beq_eq_false_iff_ne.mpr hna, beq_eq_false_iff_ne.mpr hno]
        rfl
      simp [unlockChapter, hreq, hch, hrole, ha, hcond]

/-- Concrete instantiation of `lockChapter_conflict_exposes_holder`: alice
tries to lock the chapter bob holds (unexpired); she gets the 409 with
bob's id, the lock timestamp and his username, and the state is
unchanged. -/
theorem lockChapter_conflict_exposes_holder_witness :
    lockChapter lockDemoDB 20 aliceRec 200
      = (LockOutcome.conflict "chapter locked by another user" (some 8)
          (some 100) (some "bob"), lockDemoDB) :=
  (lockChapter_conflict_exposes_holder lockDemoDB 20 aliceRec 200
    lockDemoCh20 (by decide) (by decide) ProjectMemberRole.editor (by decide)
    (by decide) 8 (by decide) (by decide) (by decide)).trans (by decide)

/-- Concrete instantiation of `lockChapter_grants_when_free_or_own`:
bob's self-renewal on his own unexpired lock succeeds and refreshes the
timestamp. -/
theorem lockChapter_grants_when_free_or_own_witness :
    (∃ msg, (lockChapter lockDemoDB 20 bobRec 200).1
      = LockOutcome.ok lockDemoCh20.id (some bobRec.id) (some 200) msg) ∧
    (∃ ch2, findChapter (lockChapter lockDemoDB 20 bobRec 200).2 20 = some ch2 ∧
      ch2.lockedBy = some bobRec.id ∧ ch2.lockedAt = some 200) :=
  lockChapter_grants_when_free_or_own lockDemoDB 20 bobRec 200 lockDemoCh20
    (by decide) (by decide) ProjectMemberRole.editor (by decide) (by decide)
    (Or.inr (Or.inr (by decide)))

/-- Concrete instantiation of `unlockChapter_release_rules`: the holder
bob releases his own lock; both fields are cleared. -/
theorem unlockChapter_release_rules_witness :
    (unlockChapter lockDemoDB 20 bobRec).1
      = LockOutcome.ok lockDemoCh20.id none none "chapter unlocked" ∧
    ∃ ch2, findChapter (unlockChapter lockDemoDB 20 bobRec).2 20 = some ch2 ∧
      ch2.lockedBy = none ∧ ch2.lockedAt = none :=
  ((unlockChapter_release_rules lockDemoDB 20 bobRec lockDemoCh20 (by decide)
    (by decide) ProjectMemberRole.editor (by decide)).2 8 (by decide)).1
    (Or.inl (by decide))

lemma validate_true_cases (cur tgt : ChapterStatus) (pr : ProjectMemberRole)
    (gr : UserRole) (hgr : gr ≠ UserRole.admin)
    (hv : (validateStatusTransition cur tgt pr gr).1 = true) :
    (cur = ChapterStatus.pending ∧ tgt = ChapterStatus.generated) ∨
    (cur = ChapterStatus.generated ∧ tgt = ChapterStatus.reviewing) ∨
    (cur = ChapterStatus.reviewing ∧ tgt = ChapterStatus.finalized) ∨
    (cur = ChapterStatus.reviewing ∧ tgt = ChapterStatus.generated) := by
  have hgr2 : (gr == UserRole.admin) = false := beq_eq_false_iff_ne.mpr hgr
  cases cur <;> cases tgt <;>
    first
      | decide
      | (exfalso
         simp [validateStatusTransition, statusTransitions, hgr2] at hv)

/-- C5 (amended): through the dedicated status endpoint, every transition
a caller without the global admin role can perform is one of
`pending → generated`, `generated → reviewing`, `reviewing → finalized`,
or the send-back edge `reviewing → generated`; in particular `finalized`
is terminal for that endpoint.  (The content-update endpoint, however,
overwrites the status — see the counterexample theorem.) -/
theorem updateChapterStatus_monotone (db : DB) (cid : Nat)
    (tgt : ChapterStatus) (user : UserRec)
    (hadmin : user.role ≠ UserRole.admin) (o t : ChapterStatus)
    (h : (updateChapterStatus db cid tgt user).1 = StatusOutcome.ok o t) :
    (o = ChapterStatus.pending ∧ t = ChapterStatus.generated) ∨
    (o = ChapterStatus.generated ∧ t = ChapterStatus.reviewing) ∨
    (o = ChapterStatus.reviewing ∧ t = ChapterStatus.finalized) ∨
    (o = ChapterStatus.reviewing ∧ t = ChapterStatus.generated) := by
  unfold updateChapterStatus at h
  split at h
  · simp at h
  · split at h
    · simp at h
    · split at h
      · simp at h
      · rename_i ch hfc mrx pr hmr
        split at h
        · simp at h
        · rename_i hvneg
          have hv : (validateStatusTransition ch.status tgt pr user.role).1
              = true := by simpa using hvneg
          have hcases := validate_true_cases ch.status tgt pr user.role
            hadmin hv
          obtain ⟨ho, ht⟩ : ch.status = o ∧ tgt = t := by
            simp only [] at h
            cases h
            exact ⟨rfl, rfl⟩
          rw [ho, ht] at hcases
          exact hcases

/-- Concrete instantiation of `updateChapterStatus_monotone`: alice moves
the pending chapter to `generated` through the status endpoint. -/
theorem updateChapterStatus_monotone_witness :
    (ChapterStatus.pending = ChapterStatus.pending ∧
      ChapterStatus.generated = ChapterStatus.generated) ∨
    (ChapterStatus.pending = ChapterStatus.generated ∧
      ChapterStatus.generated = ChapterStatus.reviewing) ∨
    (ChapterStatus.pending = ChapterStatus.reviewing ∧
      ChapterStatus.generated = ChapterStatus.finalized) ∨
    (ChapterStatus.pending = ChapterStatus.reviewing ∧
      ChapterStatus.generated = ChapterStatus.generated) :=
  updateChapterStatus_monotone statusDemoDB 31 ChapterStatus.generated
    aliceRec (by decide) ChapterStatus.pending ChapterStatus.generated
    (by decide)

/-- C5 counterexample: `finalized` is not terminal for non-privileged
callers across all operations.  Alice — a non-admin project editor —
calls the content-update endpoint on a finalized chapter: the call
succeeds and the chapter's status drops to `generated`
(`update_chapter_content` sets `status = GENERATED` unconditionally and
`_check_edit_permission` never looks at the status). -/
theorem finalized_changed_by_content_update :
    aliceRec.role ≠ UserRole.admin ∧
    statusDemoCh30.status = ChapterStatus.finalized ∧
    ((updateChapterContent statusDemoDB 30 aliceRec "new text" none 1000).1
      = UpdateOutcome.ok 30 ChapterStatus.generated (some 7)) ∧
    ((updateChapterContent statusDemoDB 30 aliceRec "new text" none
        1000).2.chapters.map (fun c => c.status)
      = [ChapterStatus.generated, ChapterStatus.pending]) := by
  decide

/-- Concrete instantiation of `rollback_crosses_project_boundary`:
rolling project 1 back overwrites the project-2 chapter and reports it
restored. -/
theorem rollback_crosses_project_boundary_witness :
    (∃ c2 ∈ (rollbackToVersion crossDemoDB 1 60 7 true).2.chapters,
      c2.id = 9 ∧ c2.projectId = crossDemoChapter.projectId ∧
      c2.projectId ≠ 1 ∧
      c2.title = crossDemoEntry.title.getD crossDemoChapter.title ∧
      c2.content = crossDemoEntry.content) ∧
    (∃ ok : RollbackOk,
      (rollbackToVersion crossDemoDB 1 60 7 true).1 = some ok ∧
      9 ∈ ok.restoredChapters.map (fun r => r.id)) :=
  rollback_crosses_project_boundary crossDemoDB 1 60 7 true crossDemoTarget
    (by decide) (by decide) crossDemoEntry (by decide) 9 (by decide)
    crossDemoChapter (by decide) (by decide) (by decide)

end Yibiao
